import Mathlib

/-!
Shallow embedding of `src/satfetch.go` (package main), the satfetch
batch-fetch scheduler and response demultiplexer, and proofs checking the
specification's claims against it.

Modelling conventions:
* Go strings are modelled as Lean `String` viewed as its list of
  characters; all inputs of interest are ASCII, so Go's byte indexing and
  Lean's character indexing agree.
* Go's `strings.Split`, `strings.Trim` and `strconv.Atoi` are re-implemented
  structurally (so the kernel can evaluate them) with the same semantics on
  the inputs that occur.
* A Go run-time panic (slice index out of range) and a `log.Fatal` /
  `panic(err)` abort are distinct outcomes (`sliceFault` vs `fatalStop`):
  both kill the process, but the spec distinguishes them.
* The filesystem is a list of filenames that exist; `os.OpenFile` with
  `O_CREATE|O_EXCL` succeeds exactly when the filename is absent, except
  that an oracle `osErr : String → Bool` may signal a non-exist creation
  error (permissions, I/O), matching the branch on `os.IsExist(err)`.
* The network (`STPOST`) is an oracle `transport : String → String` from the
  full query URL to the raw response body; the URLs actually posted during a
  cycle are collected so "no request was sent" is expressible.
-/

/-- Go `strings.Split(s, sep)` for a one-character separator, on the
character list: splits at every occurrence, keeping empty segments, and
yields `[[]]` on the empty input, exactly like Go. -/
def splitOnChar (sep : Char) : List Char → List (List Char)
  | [] => [[]]
  | c :: cs =>
    let r := splitOnChar sep cs
    if c = sep then [] :: r
    else
      match r with
      | [] => [[c]]
      | h :: t => (c :: h) :: t

/-- `strings.Split(string(resp), "\n")` from line 184 of satfetch.go. -/
def splitLines (s : String) : List String :=
  (splitOnChar (Char.ofNat 10) s.toList).map String.mk

/-- Go `strings.Trim(s, " ")`: removes leading and trailing spaces. -/
def trimSpaces (s : String) : String :=
  String.mk (((s.toList.dropWhile (fun c => c = ' ')).reverse.dropWhile
    (fun c => c = ' ')).reverse)

/-- Digit-string to number; `none` when empty or any non-digit occurs,
like the digit loop of `strconv.Atoi`. -/
def parseDigits (cs : List Char) : Option Nat :=
  if cs = [] then none
  else
    cs.foldl
      (fun acc c =>
        match acc with
        | none => none
        | some a => if c.isDigit then some (a * 10 + (c.toNat - 48)) else none)
      (some 0)

/-- Go `strconv.Atoi`: optional sign then one or more digits; anything else
(empty string, spaces, letters) is an error, modelled as `none`.  Overflow
is not modelled: the identifiers at stake have at most five digits. -/
def Atoi (s : String) : Option Int :=
  match s.toList with
  | '+' :: rest => (parseDigits rest).map Int.ofNat
  | '-' :: rest => (parseDigits rest).map (fun n => -(Int.ofNat n : Int))
  | cs => (parseDigits cs).map Int.ofNat

/-- Go string slicing `s[lo:hi]` (ASCII): defined when `lo ≤ hi ≤ len(s)`,
otherwise a run-time panic, modelled as `none`. -/
def goSliceString (s : String) (lo hi : Nat) : Option String :=
  if lo ≤ hi ∧ hi ≤ s.toList.length then
    some (String.mk ((s.toList.drop lo).take (hi - lo)))
  else none

/-- `SatcatRow` from satfetch.go, one row of the Space Track satellite
catalog.  Only `NORADID` matters to the scheduler; the other fields are
carried verbatim. -/
structure SatcatRow where
  IntlDes : String
  NORADID : String
  ObjectType : String
  SatName : String
  Country : String
  LaunchDate : String
  LaunchSite : String
  DecayDate : String
  Period : String
  Inclination : String
  Apogeee : String
  Perigee : String
  Comment : String
  CommentCode : String
  RCSValue : String
  RCSSize : String
  FileID : String
  LaunchYear : String
  LaunchNum : String
  LaunchPiece : String
  IsCurrent : String
  ObjectName : String
  ObjectID : String
  ObjectNum : String
  deriving DecidableEq

/-- A catalog row whose descriptive fields are blank; only the NORAD ID is
set.  Used for concrete test catalogs. -/
def mkRow (nid : String) : SatcatRow :=
  ⟨"", nid, "", "", "", "", "", "", "", "", "", "", "", "", "", "", "", "",
   "", "", "", "", "", ""⟩

/-- Outcome of extracting the identifier from one response line
(line 187 of satfetch.go: `strconv.Atoi(strings.Trim(lines[i][2:7], " "))`).
`sliceFault` is the Go run-time panic when the line is shorter than 7
characters; `parseFail` is the `strconv.Atoi` error, which the code turns
into `log.Fatal`. -/
inductive LineResult where
  | sliceFault : LineResult
  | parseFail : LineResult
  | id : Int → LineResult
  deriving DecidableEq

/-- Identifier extraction for one response line: slice characters 2..6,
trim spaces, parse as an integer. -/
def lineID (l : String) : LineResult :=
  match goSliceString l 2 7 with
  | none => LineResult.sliceFault
  | some sub =>
    match Atoi (trimSpaces sub) with
    | none => LineResult.parseFail
    | some n => LineResult.id n

/-- Lookup in the `files` map (`map[int]*os.File`), modelled as an
association list from the numeric NORAD ID to the NORAD-ID string that
created the sink. -/
def lookupAssoc : List (Int × String) → Int → Option String
  | [], _ => none
  | (k, v) :: rest, n => if k = n then some v else lookupAssoc rest n

/-- Go map assignment `files[k] = v`: replace the binding if the key is
present, otherwise add it. -/
def insertAssoc : List (Int × String) → Int → String → List (Int × String)
  | [], k, v => [(k, v)]
  | (k1, v1) :: rest, k, v =>
    if k1 = k then (k, v) :: rest else (k1, v1) :: insertAssoc rest k v

/-- Outcome of the demultiplex loop (lines 186-197 of satfetch.go).  Each
outcome carries the write events `(numeric id, raw line)` performed before
it was reached; a write event `(n, l)` appends the raw text `l` to the sink
registered under `n` in the `files` map. -/
inductive DemuxOutcome where
  | ok : List (Int × String) → DemuxOutcome
  | fatalStop : List (Int × String) → DemuxOutcome
  | sliceFault : List (Int × String) → DemuxOutcome
  deriving DecidableEq

/-- The write events an outcome carries. -/
def demuxWrites : DemuxOutcome → List (Int × String)
  | DemuxOutcome.ok ws => ws
  | DemuxOutcome.fatalStop ws => ws
  | DemuxOutcome.sliceFault ws => ws

/-- The demultiplex loop: for each line in order, extract the identifier
(a short line is a run-time panic, a failed parse is `log.Fatal`), and if
the identifier is a key of `files`, append the raw line to that sink;
otherwise the line is dropped. -/
def demuxLoop (files : List (Int × String)) :
    List String → List (Int × String) → DemuxOutcome
  | [], acc => DemuxOutcome.ok acc
  | l :: rest, acc =>
    match lineID l with
    | LineResult.sliceFault => DemuxOutcome.sliceFault acc
    | LineResult.parseFail => DemuxOutcome.fatalStop acc
    | LineResult.id n =>
      match lookupAssoc files n with
      | some _ => demuxLoop files rest (acc ++ [(n, l)])
      | none => demuxLoop files rest acc

/-- The response demultiplexer (lines 184-197): split the raw response on
newlines, then run the loop on every segment except the last
(`for i := 0; i < len(lines)-1; i++`). -/
def demux (resp : String) (files : List (Int × String)) : DemuxOutcome :=
  demuxLoop files ((splitLines resp).dropLast) []

/-- The routing function the loop implements on a well-formed response:
a line goes to its parsed identifier's sink when that identifier is a key
of the map, and nowhere otherwise. -/
def route (files : List (Int × String)) (l : String) : Option (Int × String) :=
  match lineID l with
  | LineResult.id n =>
    if (lookupAssoc files n).isSome then some (n, l) else none
  | _ => none

/-- The output filename for a NORAD ID:
`destDir + "/" + v.NORADID + ".tle"` (line 145). -/
def mkFilename (destDir nid : String) : String :=
  destDir ++ "/" ++ nid ++ ".tle"

/-- Accumulator of the claim loop of `FetchTLEsForSATCAT` (lines 138-166):
the filesystem (all filenames that exist), the comma-terminated query
string `noradIDQuery`, the claimed IDs `noradIDs`, and the sink map
`files`.  A sink is identified by the NORAD-ID string whose artifact it
writes to. -/
structure RowAcc where
  fs : List String
  noradIDQuery : String
  noradIDs : List String
  files : List (Int × String)
  deriving DecidableEq

/-- One iteration of the claim loop (lines 143-166) for row `r`:
`os.OpenFile(filename, O_APPEND|O_WRONLY|O_CREATE|O_EXCL, 0600)`.
If the artifact exists, the conflict is logged and the row skipped
(`some acc`, unchanged).  If creation fails for any other reason — the
oracle `osErr` — the process aborts (`none`, a `log.Fatal`).  On success
the artifact is created, the ID is appended to the query and the ID list,
and the sink is registered under the numeric ID; a NORAD ID that does not
parse as an integer aborts the process (`log.Fatal` at line 162). -/
def claimRow (osErr : String → Bool) (destDir : String) (acc : RowAcc)
    (r : SatcatRow) : Option RowAcc :=
  let filename := mkFilename destDir r.NORADID
  if filename ∈ acc.fs then
    some acc
  else if osErr filename then
    none
  else
    match Atoi r.NORADID with
    | none => none
    | some n =>
      some
        { fs := filename :: acc.fs
          noradIDQuery := acc.noradIDQuery ++ r.NORADID ++ ","
          noradIDs := acc.noradIDs ++ [r.NORADID]
          files := insertAssoc acc.files n r.NORADID }

/-- The whole claim loop over the rows of the fetch window. -/
def claimAll (osErr : String → Bool) (destDir : String) (acc : RowAcc) :
    List SatcatRow → Option RowAcc
  | [] => some acc
  | r :: rs =>
    match claimRow osErr destDir acc r with
    | none => none
    | some acc1 => claimAll osErr destDir acc1 rs

/-- Go `q[:len(q)-1]`: strip the trailing comma (line 172). -/
def goDropLastChar (s : String) : String :=
  String.mk s.toList.dropLast

/-- The query URL built at lines 173-176. -/
def tleQueryURL (apiRoot q : String) : String :=
  apiRoot ++ "/query/class/tle/NORAD_CAT_ID/" ++ q ++
    "/orderby/EPOCH asc/format/tle/metadata/false"

/-- Outcome of one call to `FetchTLEsForSATCAT`.  `sliceFault` is a Go
run-time panic (slice bounds out of range), `fatalStop` a `log.Fatal` or
`panic(err)`; both kill the process.  `noop` is the early return at
lines 168-170 when no identifier survived claiming.  Each outcome carries
the filesystem after the cycle and, where applicable, the write events of
the demultiplexer. -/
inductive CycleResult where
  | sliceFault : List String → CycleResult
  | fatalStop : List String → List (Int × String) → CycleResult
  | noop : List String → CycleResult
  | done : List String → List (Int × String) → CycleResult
  deriving DecidableEq

/-- One call to `FetchTLEsForSATCAT` with the URLs it posted.  The spec's
"no request sent" is `requests = []`. -/
structure CycleOut where
  requests : List String
  result : CycleResult
  deriving DecidableEq

/-- `FetchTLEsForSATCAT(satcatRows, startRow, numToFetch, destDir)`
(lines 137-198).  The window `satcatRows[startRow : startRow+numToFetch]`
is taken verbatim: when `startRow+numToFetch` exceeds the catalog length
the slice is a run-time fault — the source has no clamping.  Then the
claim loop runs; an empty query returns early with no request; otherwise
the trailing comma is stripped, one bulk query is posted through
`transport`, and the response is demultiplexed into the claimed sinks. -/
def FetchTLEsForSATCAT (osErr : String → Bool) (transport : String → String)
    (apiRoot : String) (satcatRows : List SatcatRow)
    (startRow numToFetch : Nat) (destDir : String) (fs : List String) :
    CycleOut :=
  if startRow + numToFetch ≤ satcatRows.length then
    match claimAll osErr destDir ⟨fs, "", [], []⟩
        ((satcatRows.drop startRow).take numToFetch) with
    | none => ⟨[], CycleResult.fatalStop fs []⟩
    | some acc =>
      if acc.noradIDQuery = "" then ⟨[], CycleResult.noop acc.fs⟩
      else
        let queryURL := tleQueryURL apiRoot (goDropLastChar acc.noradIDQuery)
        match demux (transport queryURL) acc.files with
        | DemuxOutcome.ok ws => ⟨[queryURL], CycleResult.done acc.fs ws⟩
        | DemuxOutcome.fatalStop ws =>
          ⟨[queryURL], CycleResult.fatalStop acc.fs ws⟩
        | DemuxOutcome.sliceFault _ =>
          ⟨[queryURL], CycleResult.sliceFault acc.fs⟩
  else ⟨[], CycleResult.sliceFault fs⟩

/-- Scheduler state threaded through `main`'s event loop: the cursor
`lastFetched`, the filesystem, and all write events so far. -/
structure SchedState where
  lastFetched : Nat
  fs : List String
  writes : List (Int × String)
  deriving DecidableEq

/-- One scheduler cycle as driven by `main` (lines 262-284): run
`FetchTLEsForSATCAT` at the cursor, then `lastFetched += *batchSize` —
the cursor advances by exactly the batch size whether or not anything was
claimed or fetched.  A fatal outcome kills the process (`none`): the
increment is never reached. -/
def schedStep (osErr : String → Bool) (transport : String → String)
    (apiRoot destDir : String) (satcatRows : List SatcatRow)
    (batchSize : Nat) (st : SchedState) : Option SchedState :=
  match (FetchTLEsForSATCAT osErr transport apiRoot satcatRows
      st.lastFetched batchSize destDir st.fs).result with
  | CycleResult.sliceFault _ => none
  | CycleResult.fatalStop _ _ => none
  | CycleResult.noop fs1 =>
    some ⟨st.lastFetched + batchSize, fs1, st.writes⟩
  | CycleResult.done fs1 ws =>
    some ⟨st.lastFetched + batchSize, fs1, st.writes ++ ws⟩

/-- `k` consecutive scheduler cycles (the initial call plus timer ticks);
`none` when some cycle killed the process. -/
def runCycles (osErr : String → Bool) (transport : String → String)
    (apiRoot destDir : String) (satcatRows : List SatcatRow)
    (batchSize : Nat) : Nat → SchedState → Option SchedState
  | 0, st => some st
  | k + 1, st =>
    match schedStep osErr transport apiRoot destDir satcatRows batchSize st with
    | none => none
    | some st1 => runCycles osErr transport apiRoot destDir satcatRows
        batchSize k st1

/-- The comma-terminated join the claim loop builds: the query string is
exactly this function of the claimed IDs. -/
def joinIds : List String → String
  | [] => ""
  | nid :: rest => nid ++ "," ++ joinIds rest

/-- Whether identifier extraction on a line succeeded. -/
def isIdResult : LineResult → Bool
  | LineResult.id _ => true
  | _ => false

/-- A response-line list is well formed when every line yields an
identifier (no short line, no parse failure). -/
def allParse (ls : List String) : Prop :=
  ∀ l ∈ ls, isIdResult (lineID l) = true

instance : DecidablePred allParse := fun ls =>
  List.decidableBAll (fun l => isIdResult (lineID l) = true) ls

/-- Invariant of the claim loop, relative to the filesystem `fs0` the
cycle started with: the claimed IDs are distinct, their artifacts all
exist now and none of them existed before the cycle, pre-existing files
are preserved, every sink of the map belongs to a claimed ID, and the
query string is exactly the comma-join of the claimed IDs. -/
def ClaimInv (destDir : String) (fs0 : List String) (acc : RowAcc) : Prop :=
  acc.noradIDs.Nodup ∧
  (∀ s ∈ fs0, s ∈ acc.fs) ∧
  (∀ nid ∈ acc.noradIDs,
    mkFilename destDir nid ∈ acc.fs ∧ mkFilename destDir nid ∉ fs0) ∧
  (∀ kv ∈ acc.files, kv.2 ∈ acc.noradIDs) ∧
  acc.noradIDQuery = joinIds acc.noradIDs

/-- The three-row catalog of the spec's end-to-end scenario (§8). -/
def rows3 : List SatcatRow := [mkRow "100", mkRow "200", mkRow "300"]

/-- An error-free OS: creation never fails except on existence. -/
def noErr : String → Bool := fun _ => false

/-- An OS on which every file creation fails with a non-exist error
(permissions, I/O). -/
def errAll : String → Bool := fun _ => true

/-- A transport for the scenario: one well-formed TLE-like line per
requested identifier, and an empty body for any other URL. -/
def transport3 : String → String := fun url =>
  if url = tleQueryURL "" "100,200" then "1 00100U aaaa\n1 00200U bbbb\n"
  else if url = tleQueryURL "" "300" then "1 00300U cccc\n"
  else ""

example : splitLines "a\nb\n" = ["a", "b", ""] := by decide
example : splitLines "" = [""] := by decide
example : Atoi "00100" = some 100 := by decide
example : Atoi "" = none := by decide
example : trimSpaces " 25544 " = "25544" := by decide
example : lineID "1 25544U 98067A  " = LineResult.id 25544 := by decide
example : lineID "1 2554" = LineResult.sliceFault := by decide
example : lineID "1 ABCDE junk" = LineResult.parseFail := by decide
example :
    demux "1 00100 a\n1 00200 b\n" [(100, "100")] =
      DemuxOutcome.ok [(100, "1 00100 a")] := by decide

lemma isIdResult_eq_true {l : String} (h : isIdResult (lineID l) = true) :
    ∃ n, lineID l = LineResult.id n := by
  cases hl : lineID l with
  | sliceFault => rw [hl] at h; simp [isIdResult] at h
  | parseFail => rw [hl] at h; simp [isIdResult] at h
  | id n => exact ⟨n, rfl⟩

/-- On a well-formed line list the loop completes, and its writes are
exactly the accumulated routing of each line: each line whose identifier
is a key of the map is appended, verbatim and in order, under exactly that
identifier, and every other line contributes nothing. -/
lemma demuxLoop_ok_of_allParse (files : List (Int × String)) :
    ∀ ls : List String, allParse ls → ∀ acc,
      demuxLoop files ls acc =
        DemuxOutcome.ok (acc ++ ls.filterMap (route files)) := by
  intro ls
  induction ls with
  | nil => intro _ acc; simp [demuxLoop]
  | cons l rest ih =>
    intro h acc
    obtain ⟨n, hn⟩ := isIdResult_eq_true (h l (List.mem_cons_self l rest))
    have hrest : allParse rest := fun l2 hl2 => h l2 (List.mem_cons_of_mem l hl2)
    cases hlk : lookupAssoc files n with
    | some s =>
      simp only [demuxLoop, hn, hlk]
      rw [ih hrest (acc ++ [(n, l)])]
      simp [route, hn, hlk, List.filterMap_cons]
    | none =>
      simp only [demuxLoop, hn, hlk]
      rw [ih hrest acc]
      simp [route, hn, hlk, List.filterMap_cons]

/-- Conversely, when the loop completes normally every line was well
formed and the writes are exactly the routed lines. -/
lemma demuxLoop_ok_inv (files : List (Int × String)) :
    ∀ (ls : List String) (acc ws : List (Int × String)),
      demuxLoop files ls acc = DemuxOutcome.ok ws →
      allParse ls ∧ ws = acc ++ ls.filterMap (route files) := by
  intro ls
  induction ls with
  | nil =>
    intro acc ws h
    simp only [demuxLoop, DemuxOutcome.ok.injEq] at h
    exact ⟨fun l hl => absurd hl (List.not_mem_nil l), by simp [h]⟩
  | cons l rest ih =>
    intro acc ws h
    cases hn : lineID l with
    | sliceFault => rw [demuxLoop, hn] at h; exact absurd h (by simp)
    | parseFail => rw [demuxLoop, hn] at h; exact absurd h (by simp)
    | id n =>
      cases hlk : lookupAssoc files n with
      | some s =>
        simp only [demuxLoop, hn, hlk] at h
        obtain ⟨hp, hw⟩ := ih (acc ++ [(n, l)]) ws h
        refine ⟨?_, ?_⟩
        · intro l2 hl2
          rcases List.mem_cons.mp hl2 with h1 | h2
          · rw [h1, hn]; rfl
          · exact hp l2 h2
        · rw [hw]; simp [route, hn, hlk, List.filterMap_cons]
      | none =>
        simp only [demuxLoop, hn, hlk] at h
        obtain ⟨hp, hw⟩ := ih acc ws h
        refine ⟨?_, ?_⟩
        · intro l2 hl2
          rcases List.mem_cons.mp hl2 with h1 | h2
          · rw [h1, hn]; rfl
          · exact hp l2 h2
        · rw [hw]; simp [route, hn, hlk, List.filterMap_cons]

/-- Soundness of every write the loop ever performs, whatever the
outcome: a write not already in the accumulator targets the sink
registered under the written line's own parsed identifier. -/
lemma demuxWrites_sound (files : List (Int × String)) :
    ∀ (ls : List String) (acc : List (Int × String)),
      ∀ p ∈ demuxWrites (demuxLoop files ls acc),
        p ∈ acc ∨
          (lineID p.2 = LineResult.id p.1 ∧
            (lookupAssoc files p.1).isSome = true) := by
  intro ls
  induction ls with
  | nil => intro acc p hp; exact Or.inl hp
  | cons l rest ih =>
    intro acc p hp
    cases hn : lineID l with
    | sliceFault => rw [demuxLoop, hn] at hp; exact Or.inl hp
    | parseFail => rw [demuxLoop, hn] at hp; exact Or.inl hp
    | id n =>
      cases hlk : lookupAssoc files n with
      | some s =>
        simp only [demuxLoop, hn, hlk] at hp
        rcases ih (acc ++ [(n, l)]) p hp with hmem | hgood
        · rcases List.mem_append.mp hmem with h1 | h2
          · exact Or.inl h1
          · have : p = (n, l) := by simpa using h2
            refine Or.inr ?_
            rw [this]
            exact ⟨hn, by rw [hlk]; rfl⟩
        · exact Or.inr hgood
      | none =>
        simp only [demuxLoop, hn, hlk] at hp
        exact ih acc p hp

/-- A line whose identifier parses but is not a key of the map is ignored
by the loop: the run on any line list containing it equals the run on the
same list with that line removed.  This is the silently-dropped contract. -/
lemma demuxLoop_skip (files : List (Int × String)) (l0 : String) (n0 : Int)
    (h1 : lineID l0 = LineResult.id n0)
    (h2 : lookupAssoc files n0 = none) :
    ∀ (pre post : List String) (acc : List (Int × String)),
      demuxLoop files (pre ++ l0 :: post) acc =
        demuxLoop files (pre ++ post) acc := by
  intro pre
  induction pre with
  | nil =>
    intro post acc
    simp only [List.nil_append, demuxLoop, h1, h2]
  | cons l pre1 ih =>
    intro post acc
    cases hn : lineID l with
    | sliceFault => simp only [List.cons_append, demuxLoop, hn]
    | parseFail => simp only [List.cons_append, demuxLoop, hn]
    | id n =>
      cases hlk : lookupAssoc files n with
      | some s => simp only [List.cons_append, demuxLoop, hn, hlk]; exact ih post _
      | none => simp only [List.cons_append, demuxLoop, hn, hlk]; exact ih post acc

/-- When every line before `l` parses and `l` itself fails to parse, the
loop aborts with the `log.Fatal` outcome, whatever follows `l`. -/
lemma demuxLoop_parseFail (files : List (Int × String)) (l : String)
    (hl : lineID l = LineResult.parseFail) :
    ∀ (pre : List String), allParse pre →
      ∀ (post : List String) (acc : List (Int × String)),
        ∃ ws, demuxLoop files (pre ++ l :: post) acc =
          DemuxOutcome.fatalStop ws := by
  intro pre
  induction pre with
  | nil =>
    intro _ post acc
    exact ⟨acc, by simp only [List.nil_append, demuxLoop, hl]⟩
  | cons l2 pre1 ih =>
    intro hall post acc
    obtain ⟨n, hn⟩ := isIdResult_eq_true (hall l2 (List.mem_cons_self l2 pre1))
    have hrest : allParse pre1 := fun x hx => hall x (List.mem_cons_of_mem l2 hx)
    cases hlk : lookupAssoc files n with
    | some s =>
      simp only [List.cons_append, demuxLoop, hn, hlk]
      exact ih hrest post _
    | none =>
      simp only [List.cons_append, demuxLoop, hn, hlk]
      exact ih hrest post acc

/-- When every line before `l` parses and `l` is too short for the
fixed-offset slice, the loop aborts with the run-time slice fault,
whatever follows `l`. -/
lemma demuxLoop_sliceFault (files : List (Int × String)) (l : String)
    (hl : lineID l = LineResult.sliceFault) :
    ∀ (pre : List String), allParse pre →
      ∀ (post : List String) (acc : List (Int × String)),
        ∃ ws, demuxLoop files (pre ++ l :: post) acc =
          DemuxOutcome.sliceFault ws := by
  intro pre
  induction pre with
  | nil =>
    intro _ post acc
    exact ⟨acc, by simp only [List.nil_append, demuxLoop, hl]⟩
  | cons l2 pre1 ih =>
    intro hall post acc
    obtain ⟨n, hn⟩ := isIdResult_eq_true (hall l2 (List.mem_cons_self l2 pre1))
    have hrest : allParse pre1 := fun x hx => hall x (List.mem_cons_of_mem l2 hx)
    cases hlk : lookupAssoc files n with
    | some s =>
      simp only [List.cons_append, demuxLoop, hn, hlk]
      exact ih hrest post _
    | none =>
      simp only [List.cons_append, demuxLoop, hn, hlk]
      exact ih hrest post acc

/-- A line shorter than 7 characters makes the fixed-offset extraction a
run-time slice fault: `lines[i][2:7]` is out of range before any parsing
happens. -/
lemma lineID_short (l : String) (h : l.toList.length < 7) :
    lineID l = LineResult.sliceFault := by
  have : ¬(2 ≤ 7 ∧ 7 ≤ l.toList.length) := by omega
  simp only [lineID, goSliceString, if_neg this]

/-- A line of length at least 7 never takes the slice-fault path: the
extraction is total there and any failure is a parse failure. -/
lemma lineID_long (l : String) (h : 7 ≤ l.toList.length) :
    lineID l ≠ LineResult.sliceFault := by
  have hc : 2 ≤ 7 ∧ 7 ≤ l.toList.length := ⟨by omega, h⟩
  simp only [lineID, goSliceString, if_pos hc]
  cases Atoi (trimSpaces (String.mk ((l.toList.drop 2).take (7 - 2)))) with
  | none => simp
  | some n => simp

lemma splitOnChar_ne_nil (sep : Char) : ∀ xs, splitOnChar sep xs ≠ [] := by
  intro xs
  cases xs with
  | nil => simp [splitOnChar]
  | cons c cs =>
    simp only [splitOnChar]
    split
    · simp
    · split
      · simp
      · simp

lemma splitOnChar_noSep (sep : Char) :
    ∀ xs, sep ∉ xs → splitOnChar sep xs = [xs] := by
  intro xs
  induction xs with
  | nil => intro _; rfl
  | cons c cs ih =>
    intro h
    have hc : ¬(c = sep) := fun e => h (by rw [e]; exact List.mem_cons_self sep cs)
    have hcs : sep ∉ cs := fun e => h (List.mem_cons_of_mem c e)
    simp only [splitOnChar, ih hcs, if_neg hc]

lemma dropLast_cons_ne {α : Type} (a : α) (t : List α) (h : t ≠ []) :
    (a :: t).dropLast = a :: t.dropLast := by
  cases t with
  | nil => exact absurd rfl h
  | cons b t2 => rfl

lemma dropLast_cons_eq_nil {α : Type} {a : α} {t : List α}
    (h : (a :: t).dropLast = []) : t = [] := by
  cases t with
  | nil => rfl
  | cons b t2 => simp [List.dropLast_cons₂] at h

/-- Appending separator-free text to the raw input does not change the
split's non-final segments: everything after the last separator lands in
the discarded trailing segment. -/
lemma dropLast_splitOnChar_append (sep : Char) (ys : List Char)
    (hy : sep ∉ ys) :
    ∀ xs, (splitOnChar sep (xs ++ ys)).dropLast =
      (splitOnChar sep xs).dropLast := by
  intro xs
  induction xs with
  | nil =>
    rw [List.nil_append, splitOnChar_noSep sep ys hy]
    rfl
  | cons c cs ih =>
    simp only [List.cons_append, splitOnChar, List.append_eq]
    by_cases hc : c = sep
    · rw [if_pos hc, if_pos hc,
        dropLast_cons_ne _ _ (splitOnChar_ne_nil sep (cs ++ ys)),
        dropLast_cons_ne _ _ (splitOnChar_ne_nil sep cs)]
      exact congrArg (List.cons []) ih
    · rw [if_neg hc, if_neg hc]
      obtain ⟨h1, t1, e1⟩ : ∃ h t, splitOnChar sep (cs ++ ys) = h :: t := by
        cases e : splitOnChar sep (cs ++ ys) with
        | nil => exact absurd e (splitOnChar_ne_nil sep (cs ++ ys))
        | cons h t => exact ⟨h, t, rfl⟩
      obtain ⟨h2, t2, e2⟩ : ∃ h t, splitOnChar sep cs = h :: t := by
        cases e : splitOnChar sep cs with
        | nil => exact absurd e (splitOnChar_ne_nil sep cs)
        | cons h t => exact ⟨h, t, rfl⟩
      rw [e1, e2]
      have ihe : (h1 :: t1).dropLast = (h2 :: t2).dropLast := by
        rw [← e1, ← e2]; exact ih
      cases t1 with
      | nil =>
        have ht2 : t2 = [] := dropLast_cons_eq_nil ihe.symm
        rw [ht2]
        rfl
      | cons b1 t1b =>
        cases t2 with
        | nil =>
          exact absurd (dropLast_cons_eq_nil ihe) (by simp)
        | cons b2 t2b =>
          rw [List.dropLast_cons₂, List.dropLast_cons₂] at ihe
          have hh : h1 = h2 := (List.cons.injEq _ _ _ _).mp ihe |>.1
          have ht : (b1 :: t1b).dropLast = (b2 :: t2b).dropLast :=
            (List.cons.injEq _ _ _ _).mp ihe |>.2
          rw [List.dropLast_cons₂, List.dropLast_cons₂, hh, ht]

lemma toList_append (s t : String) :
    (s ++ t).toList = s.toList ++ t.toList := by
  cases s with
  | mk a =>
    cases t with
    | mk b => rfl

lemma dropLast_map {α β : Type} (f : α → β) :
    ∀ l : List α, (l.map f).dropLast = l.dropLast.map f := by
  intro l
  induction l with
  | nil => rfl
  | cons a t ih =>
    cases t with
    | nil => rfl
    | cons b t2 =>
      simp only [List.map_cons, List.dropLast_cons₂, ← ih, List.map_cons]

lemma str_append_assoc (a b c : String) : a ++ b ++ c = a ++ (b ++ c) := by
  cases a with
  | mk la =>
    cases b with
    | mk lb =>
      cases c with
      | mk lc =>
        show String.mk (la ++ lb ++ lc) = String.mk (la ++ (lb ++ lc))
        rw [List.append_assoc]

lemma joinIds_append_one (ids : List String) (nid : String) :
    joinIds (ids ++ [nid]) = joinIds ids ++ nid ++ "," := by
  induction ids with
  | nil =>
    show nid ++ "," ++ "" = "" ++ nid ++ ","
    cases nid with
    | mk ln => show String.mk (ln ++ [','] ++ []) = String.mk ([] ++ ln ++ [','])
               simp
  | cons x rest ih =>
    show x ++ "," ++ joinIds (rest ++ [nid]) = x ++ "," ++ joinIds rest ++ nid ++ ","
    rw [ih, ← str_append_assoc, ← str_append_assoc]

lemma insertAssoc_mem :
    ∀ (m : List (Int × String)) (k : Int) (v : String) (p : Int × String),
      p ∈ insertAssoc m k v → p ∈ m ∨ p = (k, v) := by
  intro m
  induction m with
  | nil =>
    intro k v p hp
    exact Or.inr (by simpa [insertAssoc] using hp)
  | cons kv1 rest ih =>
    intro k v p hp
    obtain ⟨k1, v1⟩ := kv1
    by_cases hk : k1 = k
    · simp only [insertAssoc, if_pos hk] at hp
      rcases List.mem_cons.mp hp with h1 | h2
      · exact Or.inr h1
      · exact Or.inl (List.mem_cons_of_mem _ h2)
    · simp only [insertAssoc, if_neg hk] at hp
      rcases List.mem_cons.mp hp with h1 | h2
      · exact Or.inl (by rw [h1]; exact List.mem_cons_self _ _)
      · rcases ih k v p h2 with h3 | h4
        · exact Or.inl (List.mem_cons_of_mem _ h3)
        · exact Or.inr h4

lemma claimRow_inv (osErr : String → Bool) (destDir : String)
    (fs0 : List String) (acc acc1 : RowAcc) (r : SatcatRow)
    (hinv : ClaimInv destDir fs0 acc)
    (h : claimRow osErr destDir acc r = some acc1) :
    ClaimInv destDir fs0 acc1 := by
  obtain ⟨hnd, hfs0, hids, hfiles, hq⟩ := hinv
  by_cases hex : mkFilename destDir r.NORADID ∈ acc.fs
  · rw [claimRow, if_pos hex] at h
    obtain rfl : acc = acc1 := by simpa using h
    exact ⟨hnd, hfs0, hids, hfiles, hq⟩
  · by_cases herr : osErr (mkFilename destDir r.NORADID)
    · rw [claimRow, if_neg hex] at h
      simp only [herr, if_true] at h
      exact absurd h (by simp)
    · rw [claimRow, if_neg hex] at h
      simp only [herr, if_false] at h
      cases hA : Atoi r.NORADID with
      | none => rw [hA] at h; simp at h
      | some n =>
        rw [hA] at h
        obtain rfl : _ = acc1 := by simpa using h
        have hnotin : r.NORADID ∉ acc.noradIDs := fun hmem =>
          hex (hids r.NORADID hmem).1
        refine ⟨?_, ?_, ?_, ?_, ?_⟩
        · simp only [List.nodup_append, List.nodup_cons, List.nodup_nil]
          exact ⟨hnd, ⟨by simp, by simp⟩,
            by intro a ha hb; simp at hb; rw [hb] at ha; exact hnotin ha⟩
        · intro s hs
          exact List.mem_cons_of_mem _ (hfs0 s hs)
        · intro nid hnid
          rcases List.mem_append.mp hnid with h1 | h2
          · exact ⟨List.mem_cons_of_mem _ (hids nid h1).1, (hids nid h1).2⟩
          · have : nid = r.NORADID := by simpa using h2
            rw [this]
            exact ⟨List.mem_cons_self _ _, fun hmem => hex (hfs0 _ hmem)⟩
        · intro kv hkv
          rcases insertAssoc_mem acc.files n r.NORADID kv hkv with h1 | h2
          · exact List.mem_append_left _ (hfiles kv h1)
          · rw [h2]; exact List.mem_append_right _ (List.mem_cons_self _ _)
        · rw [hq, joinIds_append_one]

lemma claimAll_inv (osErr : String → Bool) (destDir : String)
    (fs0 : List String) :
    ∀ (rows : List SatcatRow) (acc acc1 : RowAcc),
      ClaimInv destDir fs0 acc →
      claimAll osErr destDir acc rows = some acc1 →
      ClaimInv destDir fs0 acc1 := by
  intro rows
  induction rows with
  | nil =>
    intro acc acc1 hinv h
    obtain rfl : acc = acc1 := by simpa [claimAll] using h
    exact hinv
  | cons r rest ih =>
    intro acc acc1 hinv h
    cases hr : claimRow osErr destDir acc r with
    | none => rw [claimAll, hr] at h; simp at h
    | some acc2 =>
      rw [claimAll, hr] at h
      exact ih acc2 acc1 (claimRow_inv osErr destDir fs0 acc acc2 r hinv hr) h

lemma ClaimInv_init (destDir : String) (fs0 : List String) :
    ClaimInv destDir fs0 ⟨fs0, "", [], []⟩ := by
  refine ⟨List.nodup_nil, fun s hs => hs, ?_, ?_, rfl⟩
  · intro nid hnid; exact absurd hnid (List.not_mem_nil nid)
  · intro kv hkv; exact absurd hkv (List.not_mem_nil kv)

example :
    (FetchTLEsForSATCAT noErr transport3 "" rows3 0 2 "tle" []).result =
      CycleResult.done ["tle/200.tle", "tle/100.tle"]
        [(100, "1 00100U aaaa"), (200, "1 00200U bbbb")] := by decide

example :
    (FetchTLEsForSATCAT noErr transport3 "" rows3 2 2 "tle"
      ["tle/200.tle", "tle/100.tle"]).result =
      CycleResult.sliceFault ["tle/200.tle", "tle/100.tle"] := by decide

example :
    runCycles noErr transport3 "" "tle" rows3 2 1 ⟨0, [], []⟩ =
      some ⟨2, ["tle/200.tle", "tle/100.tle"],
        [(100, "1 00100U aaaa"), (200, "1 00200U bbbb")]⟩ := by decide

example :
    runCycles noErr transport3 "" "tle" rows3 2 2 ⟨0, [], []⟩ = none := by
  decide

/-- C1 counterexample: the claim as stated fails on the code.  In the
response below the second line is non-trailing, its fixed-offset
identifier parses to 100, and 100 is a key of the sink map; yet the
demultiplexer writes it to no sink at all, because the first line's
identifier field fails to parse and `log.Fatal` aborts the process before
the second line is reached (the outcome carries zero writes). -/
theorem C1_counterexample :
    "1 00100 rest" ∈ (splitLines "1 ABCDE junk\n1 00100 rest\n").dropLast ∧
    lineID "1 00100 rest" = LineResult.id 100 ∧
    lookupAssoc [(100, "100")] 100 = some "100" ∧
    demux "1 ABCDE junk\n1 00100 rest\n" [(100, "100")] =
      DemuxOutcome.fatalStop [] := by decide

/-- C1 (amended): whenever the demultiplexer completes without aborting,
its writes are exactly the routing of the non-trailing lines — each line
whose parsed fixed-offset identifier is a key of the sink map is appended,
verbatim and in response order, under exactly that identifier, and in
particular every such mapped line is written; and unconditionally (even
when a later line aborts the process mid-response) every write that was
performed targets the sink registered under the written line's own parsed
identifier — no line is ever cross-written to a different identifier's
sink. -/
theorem C1_routing (resp : String) (files : List (Int × String)) :
    (∀ ws, demux resp files = DemuxOutcome.ok ws →
      ws = ((splitLines resp).dropLast).filterMap (route files) ∧
      ∀ l ∈ (splitLines resp).dropLast, ∀ n : Int,
        lineID l = LineResult.id n → (lookupAssoc files n).isSome = true →
        (n, l) ∈ ws) ∧
    (∀ p ∈ demuxWrites (demux resp files),
      lineID p.2 = LineResult.id p.1 ∧
        (lookupAssoc files p.1).isSome = true) := by
  constructor
  · intro ws h
    rw [demux] at h
    obtain ⟨hall, hw⟩ := demuxLoop_ok_inv files _ [] ws h
    have hw2 : ws = ((splitLines resp).dropLast).filterMap (route files) := by
      simpa using hw
    refine ⟨hw2, ?_⟩
    intro l hl n hn hs
    rw [hw2]
    exact List.mem_filterMap.mpr ⟨l, hl, by simp [route, hn, hs]⟩
  · intro p hp
    rw [demux] at hp
    rcases demuxWrites_sound files _ [] p hp with h1 | h2
    · exact absurd h1 (List.not_mem_nil p)
    · exact h2

/-- C1 witness: a concrete interleaved response for identifiers 100, 200,
300 with 100 and 300 claimed: the completed demultiplex writes exactly the
routed lines, the mapped line for 300 is written under 300, and a
performed write targets its own identifier's sink. -/
theorem C1_routing_witness :
    ([(100, "1 00100 a"), (300, "1 00300 c")] : List (Int × String)) =
      ((splitLines "1 00100 a\n1 00200 b\n1 00300 c\n").dropLast).filterMap
        (route [(100, "100"), (300, "300")]) ∧
    ((300 : Int), "1 00300 c") ∈
      ([(100, "1 00100 a"), (300, "1 00300 c")] : List (Int × String)) ∧
    lineID "1 00100 a" = LineResult.id 100 :=
  ⟨((C1_routing "1 00100 a\n1 00200 b\n1 00300 c\n"
      [(100, "100"), (300, "300")]).1
      [(100, "1 00100 a"), (300, "1 00300 c")] (by decide)).1,
   ((C1_routing "1 00100 a\n1 00200 b\n1 00300 c\n"
      [(100, "100"), (300, "300")]).1
      [(100, "1 00100 a"), (300, "1 00300 c")] (by decide)).2
      "1 00300 c" (by decide) 300 (by decide) (by decide),
   ((C1_routing "1 00100 a\n1 00200 b\n1 00300 c\n"
      [(100, "100"), (300, "300")]).2
      (100, "1 00100 a") (by decide)).1⟩

/-- C2: the fetch window is NOT clamped.  `FetchTLEsForSATCAT` slices
`satcatRows[startRow : startRow+numToFetch]` verbatim (line 143), so on
the spec's own 3-row catalog with batch size 2, the cycle at cursor 2
(window [2:4]) and the cycle at cursor 4 (window [4:6]) are run-time
slice faults, not clean no-request cycles. -/
theorem C2_window_not_clamped :
    (FetchTLEsForSATCAT noErr transport3 "" rows3 2 2 "tle"
      ["tle/200.tle", "tle/100.tle"]).result =
      CycleResult.sliceFault ["tle/200.tle", "tle/100.tle"] ∧
    (FetchTLEsForSATCAT noErr transport3 "" rows3 4 2 "tle"
      ["tle/200.tle", "tle/100.tle"]).result =
      CycleResult.sliceFault ["tle/200.tle", "tle/100.tle"] := by decide

/-- C3: for any run of the claim loop over any window, the claimed
identifiers are distinct (so at most one sink is ever created per
identifier), an identifier whose output artifact already existed when the
cycle started — including one claimed in an earlier cycle, whose artifact
that cycle created — is never among the claimed identifiers, every sink of
the cycle's map belongs to a claimed identifier, pre-existing artifacts
survive, and the batch query is exactly the comma-join of the claimed
identifiers, hence omits every conflicted identifier. -/
theorem C3_single_sink (osErr : String → Bool) (destDir : String)
    (fs0 : List String) (rows : List SatcatRow) (acc : RowAcc)
    (h : claimAll osErr destDir ⟨fs0, "", [], []⟩ rows = some acc) :
    acc.noradIDs.Nodup ∧
    (∀ nid, mkFilename destDir nid ∈ fs0 → nid ∉ acc.noradIDs) ∧
    (∀ kv ∈ acc.files, kv.2 ∈ acc.noradIDs) ∧
    (∀ s ∈ fs0, s ∈ acc.fs) ∧
    acc.noradIDQuery = joinIds acc.noradIDs := by
  obtain ⟨hnd, hfs0, hids, hfiles, hq⟩ :=
    claimAll_inv osErr destDir fs0 rows _ acc (ClaimInv_init destDir fs0) h
  exact ⟨hnd, fun nid hmem hin => (hids nid hin).2 hmem, hfiles, hfs0, hq⟩

/-- C3 witness: the spec's restart scenario — artifacts for 100 and 200
already exist; the claim loop over the 3-row catalog claims only 300,
which appears once, 100 is not claimed, and the query is "300,". -/
theorem C3_witness :
    (["300"] : List String).Nodup ∧
    "100" ∉ (["300"] : List String) ∧
    "300," = joinIds ["300"] :=
  have h : claimAll noErr "tle"
      ⟨["tle/100.tle", "tle/200.tle"], "", [], []⟩ rows3 =
      some ⟨["tle/300.tle", "tle/100.tle", "tle/200.tle"], "300,",
        ["300"], [(300, "300")]⟩ := by decide
  ⟨(C3_single_sink noErr "tle" ["tle/100.tle", "tle/200.tle"] rows3 _ h).1,
   (C3_single_sink noErr "tle" ["tle/100.tle", "tle/200.tle"] rows3 _ h).2.1
     "100" (by decide),
   (C3_single_sink noErr "tle" ["tle/100.tle", "tle/200.tle"] rows3 _ h).2.2.2.2⟩

/-- C4: a cycle in which zero identifiers survive the claim step (the
accumulated query is empty) posts no request — `FetchTLEsForSATCAT`
returns at line 168 before building a query URL — and the scheduler still
advances the cursor by exactly the batch size afterwards. -/
theorem C4_noop_cycle (osErr : String → Bool) (transport : String → String)
    (apiRoot destDir : String) (rows : List SatcatRow) (batchSize : Nat)
    (st : SchedState) (acc : RowAcc)
    (hlen : st.lastFetched + batchSize ≤ rows.length)
    (hclaim : claimAll osErr destDir ⟨st.fs, "", [], []⟩
      ((rows.drop st.lastFetched).take batchSize) = some acc)
    (hids : acc.noradIDs = []) :
    (FetchTLEsForSATCAT osErr transport apiRoot rows st.lastFetched batchSize
      destDir st.fs).requests = [] ∧
    schedStep osErr transport apiRoot destDir rows batchSize st =
      some ⟨st.lastFetched + batchSize, acc.fs, st.writes⟩ := by
  have hq : acc.noradIDQuery = "" := by
    have hinv := claimAll_inv osErr destDir st.fs _ _ acc
      (ClaimInv_init destDir st.fs) hclaim
    rw [hinv.2.2.2.2, hids]
    rfl
  have hcycle : FetchTLEsForSATCAT osErr transport apiRoot rows st.lastFetched
      batchSize destDir st.fs = ⟨[], CycleResult.noop acc.fs⟩ := by
    rw [FetchTLEsForSATCAT, if_pos hlen, hclaim]
    simp only [hq, if_pos]
  exact ⟨by rw [hcycle], by rw [schedStep, hcycle]⟩

/-- C4 witness: both artifacts of the first window already exist, so the
claim set is empty: no URL is posted and the cursor moves 0 → 2. -/
theorem C4_witness :
    (FetchTLEsForSATCAT noErr transport3 "" rows3 0 2 "tle"
      ["tle/100.tle", "tle/200.tle"]).requests = [] ∧
    schedStep noErr transport3 "" "tle" rows3 2
      ⟨0, ["tle/100.tle", "tle/200.tle"], []⟩ =
      some ⟨2, ["tle/100.tle", "tle/200.tle"], []⟩ :=
  C4_noop_cycle noErr transport3 "" "tle" rows3 2
    ⟨0, ["tle/100.tle", "tle/200.tle"], []⟩
    ⟨["tle/100.tle", "tle/200.tle"], "", [], []⟩
    (by decide) (by decide) (by decide)

/-- C5: the Claim operation (one iteration of the claim loop) has exactly
two failure modes and no partial success: if the output artifact already
exists the row is skipped with the accumulator unchanged (AlreadyClaimed,
non-fatal, the identifier stays out of the batch); if creation fails for
any other reason the whole process aborts; and every successful outcome
either left the accumulator untouched or performed the complete claim —
artifact created, identifier appended to query and ID list, sink
registered — atomically. -/
theorem C5_claim_modes (osErr : String → Bool) (destDir : String)
    (acc : RowAcc) (r : SatcatRow) :
    (mkFilename destDir r.NORADID ∈ acc.fs →
      claimRow osErr destDir acc r = some acc) ∧
    (mkFilename destDir r.NORADID ∉ acc.fs →
      osErr (mkFilename destDir r.NORADID) = true →
      claimRow osErr destDir acc r = none) ∧
    (∀ acc1, claimRow osErr destDir acc r = some acc1 →
      acc1 = acc ∨
      (mkFilename destDir r.NORADID ∉ acc.fs ∧
        osErr (mkFilename destDir r.NORADID) = false ∧
        ∃ n, Atoi r.NORADID = some n ∧
          acc1 = ⟨mkFilename destDir r.NORADID :: acc.fs,
            acc.noradIDQuery ++ r.NORADID ++ ",",
            acc.noradIDs ++ [r.NORADID],
            insertAssoc acc.files n r.NORADID⟩)) := by
  refine ⟨?_, ?_, ?_⟩
  · intro hex
    rw [claimRow, if_pos hex]
  · intro hex herr
    rw [claimRow, if_neg hex, if_pos herr]
  · intro acc1 h
    by_cases hex : mkFilename destDir r.NORADID ∈ acc.fs
    · rw [claimRow, if_pos hex] at h
      exact Or.inl (by simpa using h.symm)
    · by_cases herr : osErr (mkFilename destDir r.NORADID)
      · rw [claimRow, if_neg hex, if_pos herr] at h
        exact absurd h (by simp)
      · rw [claimRow, if_neg hex, if_neg herr] at h
        cases hA : Atoi r.NORADID with
        | none => rw [hA] at h; exact absurd h (by simp)
        | some n =>
          rw [hA] at h
          exact Or.inr ⟨hex, by simpa using herr, n, rfl, by simpa using h.symm⟩

/-- C5 witness: on a filesystem where 100.tle exists, claiming 100 is the
non-fatal skip with nothing changed; on an OS where every creation fails
with a non-exist error, claiming 200 aborts the process; and a successful
claim of 200 is the complete atomic update. -/
theorem C5_witness :
    claimRow noErr "tle" ⟨["tle/100.tle"], "", [], []⟩ (mkRow "100") =
      some ⟨["tle/100.tle"], "", [], []⟩ ∧
    claimRow errAll "tle" ⟨["tle/100.tle"], "", [], []⟩ (mkRow "200") =
      none ∧
    ((⟨["tle/200.tle", "tle/100.tle"], "200,", ["200"],
        [(200, "200")]⟩ : RowAcc) =
      ⟨["tle/100.tle"], "", [], []⟩ ∨
      (mkFilename "tle" "200" ∉ (["tle/100.tle"] : List String) ∧
        noErr (mkFilename "tle" "200") = false ∧
        ∃ n, Atoi "200" = some n ∧
          (⟨["tle/200.tle", "tle/100.tle"], "200,", ["200"],
            [(200, "200")]⟩ : RowAcc) =
          ⟨mkFilename "tle" "200" :: ["tle/100.tle"], "" ++ "200" ++ ",",
            [] ++ ["200"], insertAssoc [] n "200"⟩)) :=
  ⟨(C5_claim_modes noErr "tle" ⟨["tle/100.tle"], "", [], []⟩
      (mkRow "100")).1 (by decide),
   (C5_claim_modes errAll "tle" ⟨["tle/100.tle"], "", [], []⟩
      (mkRow "200")).2.1 (by decide) (by decide),
   (C5_claim_modes noErr "tle" ⟨["tle/100.tle"], "", [], []⟩
      (mkRow "200")).2.2
      ⟨["tle/200.tle", "tle/100.tle"], "200,", ["200"], [(200, "200")]⟩
      (by decide)⟩

/-- C6: a non-trailing response line whose fixed-offset identifier parses
to an integer absent from the cycle's sink map is silently dropped: the
demultiplexer behaves exactly as it would on the same response with that
line removed — no sink receives it, no error is surfaced, and the routing
of every other line is unaffected. -/
theorem C6_unmapped_dropped (files : List (Int × String))
    (resp resp2 l0 : String) (n0 : Int) (pre post : List String)
    (h1 : (splitLines resp).dropLast = pre ++ l0 :: post)
    (h2 : (splitLines resp2).dropLast = pre ++ post)
    (hid : lineID l0 = LineResult.id n0)
    (hlk : lookupAssoc files n0 = none) :
    demux resp files = demux resp2 files := by
  rw [demux, demux, h1, h2]
  exact demuxLoop_skip files l0 n0 hid hlk pre post []

/-- C6 witness: dropping the unmapped line for 999 from a response leaves
the demultiplex outcome unchanged. -/
theorem C6_witness :
    demux "1 00100 a\n1 00999 b\n1 00300 c\n" [(100, "100"), (300, "300")] =
      demux "1 00100 a\n1 00300 c\n" [(100, "100"), (300, "300")] :=
  C6_unmapped_dropped [(100, "100"), (300, "300")]
    "1 00100 a\n1 00999 b\n1 00300 c\n" "1 00100 a\n1 00300 c\n"
    "1 00999 b" 999 ["1 00100 a"] ["1 00300 c"]
    (by decide) (by decide) (by decide) (by decide)

/-- C7 counterexample: the claim as stated fails on the code.  The single
non-trailing line below parses to identifier 999, which has no entry in
the sink map, yet the demultiplexer completes normally (`ok`, zero
writes): an unmapped identifier is NOT a fatal condition and does not
abort the process. -/
theorem C7_counterexample :
    lineID "1 00999 b" = LineResult.id 999 ∧
    lookupAssoc [(100, "100")] 999 = none ∧
    demux "1 00999 b\n" [(100, "100")] = DemuxOutcome.ok [] := by decide

/-- C7 (amended): of the two anomalies, only the unparsable identifier is
fatal: a non-trailing line whose identifier field fails to parse aborts
the whole process (`log.Fatal`), provided the lines before it parsed;
whereas a line whose identifier parses but is unmapped is silently
dropped, the loop running exactly as if the line were absent. -/
theorem C7_parse_fatal_unmapped_dropped (files : List (Int × String))
    (pre : List String) (l : String) (post : List String)
    (acc : List (Int × String)) :
    (allParse pre → lineID l = LineResult.parseFail →
      ∃ ws, demuxLoop files (pre ++ l :: post) acc =
        DemuxOutcome.fatalStop ws) ∧
    (∀ n0, lineID l = LineResult.id n0 → lookupAssoc files n0 = none →
      demuxLoop files (pre ++ l :: post) acc =
        demuxLoop files (pre ++ post) acc) :=
  ⟨fun hp hl => demuxLoop_parseFail files l hl pre hp post acc,
   fun n0 hid hlk => demuxLoop_skip files l n0 hid hlk pre post acc⟩

/-- C7 witness: a malformed identifier field aborts the loop after one
good line, while an unmapped identifier is dropped without any effect. -/
theorem C7_witness :
    (∃ ws, demuxLoop [(100, "100")] ["1 00100 a", "1 ABCDE b"] [] =
      DemuxOutcome.fatalStop ws) ∧
    demuxLoop [(100, "100")] ["1 00100 a", "1 00999 b"] [] =
      demuxLoop [(100, "100")] ["1 00100 a"] [] :=
  ⟨(C7_parse_fatal_unmapped_dropped [(100, "100")] ["1 00100 a"]
      "1 ABCDE b" [] []).1 (by decide) (by decide),
   (C7_parse_fatal_unmapped_dropped [(100, "100")] ["1 00100 a"]
      "1 00999 b" [] []).2 999 (by decide) (by decide)⟩

/-- C8: the spec's reliability property fails on the code for catalog
sizes that are not a multiple of the batch size, for the same reason as
the missing window clamp: on the 3-row catalog with batch size 2,
ceil(3/2) = 2 cycles are needed, the first completes (two artifacts, one
line each), and the second is a run-time slice fault — the process dies
and identifier 300 never receives an artifact. -/
theorem C8_run_faults :
    runCycles noErr transport3 "" "tle" rows3 2 1 ⟨0, [], []⟩ =
      some ⟨2, ["tle/200.tle", "tle/100.tle"],
        [(100, "1 00100U aaaa"), (200, "1 00200U bbbb")]⟩ ∧
    runCycles noErr transport3 "" "tle" rows3 2 2 ⟨0, [], []⟩ = none := by
  decide

/-- C9: identifier extraction indexes characters 2..6 unconditionally, so
on any non-trailing line shorter than 7 characters (the hypotheses place
such a line after well-formed lines, e.g. an interior empty line) the
demultiplex step is a run-time out-of-range slice fault — not a reported
parse failure — while on lines of length at least 7 the extraction is
total and never takes the slice-fault path. -/
theorem C9_short_line_fault (files : List (Int × String)) (resp : String)
    (pre : List String) (l : String) (post : List String)
    (h1 : (splitLines resp).dropLast = pre ++ l :: post)
    (hpre : allParse pre) (hshort : l.toList.length < 7) :
    lineID l = LineResult.sliceFault ∧
    (∃ ws, demux resp files = DemuxOutcome.sliceFault ws) ∧
    (∀ l2 : String, 7 ≤ l2.toList.length →
      lineID l2 ≠ LineResult.sliceFault) := by
  have hl := lineID_short l hshort
  refine ⟨hl, ?_, fun l2 h7 => lineID_long l2 h7⟩
  rw [demux, h1]
  exact demuxLoop_sliceFault files l hl pre hpre post []

/-- C9 witness: a bulk response with an interior empty line faults with
the out-of-range slice after writing the first line. -/
theorem C9_witness :
    lineID "" = LineResult.sliceFault ∧
    (∃ ws, demux "1 00100 a\n\n" [(100, "100")] =
      DemuxOutcome.sliceFault ws) :=
  ⟨(C9_short_line_fault [(100, "100")] "1 00100 a\n\n" ["1 00100 a"] "" []
      (by decide) (by decide) (by decide)).1,
   (C9_short_line_fault [(100, "100")] "1 00100 a\n\n" ["1 00100 a"] "" []
      (by decide) (by decide) (by decide)).2.1⟩

/-- C10: the final segment of the newline split is always discarded:
appending any newline-free text to a response leaves the demultiplexer's
behaviour completely unchanged, so the last line of a response that does
not end with a line break is never parsed and never written; and a
response consisting of a single unterminated line produces no writes at
all. -/
theorem C10_trailing_discarded (files : List (Int × String)) (s u : String)
    (hu : Char.ofNat 10 ∉ u.toList) :
    demux (s ++ u) files = demux s files ∧
    demux u files = DemuxOutcome.ok [] := by
  constructor
  · rw [demux, demux]
    have he : (splitLines (s ++ u)).dropLast = (splitLines s).dropLast := by
      rw [splitLines, splitLines, toList_append, dropLast_map, dropLast_map,
        dropLast_splitOnChar_append (Char.ofNat 10) u.toList hu s.toList]
    rw [he]
  · rw [demux, splitLines, splitOnChar_noSep _ _ hu]
    rfl

/-- C10 witness: a trailing line for the mapped identifier 100 without a
terminating newline changes nothing and is never written. -/
theorem C10_witness :
    demux ("1 00100 a\n" ++ "1 00100 tail") [(100, "100")] =
      demux "1 00100 a\n" [(100, "100")] ∧
    demux "1 00100 tail" [(100, "100")] = DemuxOutcome.ok [] :=
  C10_trailing_discarded [(100, "100")] "1 00100 a\n" "1 00100 tail"
    (by decide)
